import Mathlib

/-!
Shallow embedding of `src/strategies/openseaSudoswapArb.ts` from the
`sftchance/mev` repository, together with the surrounding data model.

The strategy factory `openseaSudoswapArb` closes over two internal
collections (`sudoPools`, `poolBids`, both initialised to the empty
array) and defines the operations `syncState`, `processEvent`,
`processOrderEvent`, `processNewBlockEvent`, `buildArbTransaction`,
`getQuotesForPools`, `getTouchedPools`, `getNewPools` and
`updateInternalPoolState`.  In the source, `getNewPools` and
`getTouchedPools` unconditionally return the empty array,
`getQuotesForPools` returns `undefined` (its declared return type is
`Promise<void>`), and `updateInternalPoolState`, `processOrderEvent`,
`processNewBlockEvent` and `buildArbTransaction` have empty bodies
consisting only of comments.  The factory returns the record
consisting of the single property `syncState`.

JavaScript asynchrony is erased: each `async` function is embedded as
a pure function, with the one fallible external interaction
(`client.getBlockNumber()`) made explicit as an `Option`-returning
oracle indexed by attempt number, so that absence of retry is
expressible.  Closure-variable mutation is embedded as explicit state
passing over `StrategyState`.
-/

namespace Mev

/-- Chain addresses, embedded as strings (the TypeScript `AddressLike`). -/
abbrev Address := String

/-- Modelled from the spec: a pool quote (the spec's `currentBid` payload,
a price with fee parameters).  The quote type is absent from `src/`: the
source keeps pools and bids in untyped empty arrays. -/
structure Quote where
  price : Nat
  fee : Nat
  deriving DecidableEq, Repr

/-- Modelled from the spec: `PoolState`, one per liquidity pool address,
with `currentBid` optional (absent means no usable quote) and
`lastSyncedBlock` the highest block reflected in the quote.  The type is
absent from `src/`: the source's `sudoPools` is an untyped empty array. -/
structure PoolState where
  address : Address
  nftCollection : Address
  currentBid : Option Quote
  lastSyncedBlock : Nat
  deriving DecidableEq, Repr

/-- Modelled from the spec: `BlockEvent` (the source's `NewBlock` event
variant, whose payload type is absent from `src/`). -/
structure NewBlock where
  blockNumber : Nat
  newPoolAddresses : List Address
  touchedPoolAddresses : List Address
  deriving DecidableEq, Repr

/-- Modelled from the spec: `ListingEvent` (the source's `OpenseaOrder`
event variant, whose payload type is absent from `src/`). -/
structure ListingEvent where
  nftCollection : Address
  tokenId : Nat
  paymentToken : Address
  price : Nat
  chain : String
  rawOrderReference : String
  deriving DecidableEq, Repr

/-- The event vocabulary of the strategy, from the source comment
`type Event = NewBlock | OpenseaOrder`. -/
inductive Event where
  | newBlockEvent (b : NewBlock)
  | openseaOrder (o : ListingEvent)
  deriving DecidableEq, Repr

/-- Modelled from the spec: `SubmitTransactionAction`, the terminal
output of a profitable match (the source's `SubmitTx` action variant,
whose payload type is absent from `src/`). -/
structure SubmitTxToMempool where
  toAddress : Address
  data : String
  value : Nat
  deadlineBlock : Nat
  deriving DecidableEq, Repr

/-- The action vocabulary of the strategy, from the source comment
`pub enum Action ... SubmitTx(SubmitTxToMempool)`. -/
inductive Action where
  | submitTx (tx : SubmitTxToMempool)
  deriving DecidableEq, Repr

/-- The mutable closure state of one `openseaSudoswapArb` strategy
instance: the source's `const sudoPools = []` and `const poolBids = []`.
Element types follow the spec's data model; the source initialises both
collections empty and never writes to them. -/
structure StrategyState where
  sudoPools : List PoolState
  poolBids : List (Address × Nat)
  deriving DecidableEq, Repr

/-- The state the factory builds: both collections empty. -/
def initialState : StrategyState := { sudoPools := [], poolBids := [] }

/-- `PAIR_FACTORY_DEPLOYMENT_BLOCK` from the source. -/
def PAIR_FACTORY_DEPLOYMENT_BLOCK : Nat := 14650730

/-- `PAIR_FACTORY_ADDRESS` from the source. -/
def PAIR_FACTORY_ADDRESS : Address := "0x1F98431c8aD98523631AE4a59f267346ea31F984"

/-- `POOL_EVENT_SIGNATURES` from the source: the empty array. -/
def POOL_EVENT_SIGNATURES : List String := []

/-- `bidPercentage` from the source. -/
def bidPercentage : Nat := 0

/-- The chunk size used by `syncState` (`const chunkSize = 200`). -/
def chunkSize : Nat := 200

/-- `getNewPools` from the source: the body evaluates its two arguments
as expression statements and returns the empty array. -/
def getNewPools (fromBlock toBlock : Nat) : List Address :=
  let _ := fromBlock
  let _ := toBlock
  []

/-- `getTouchedPools` from the source: the body evaluates its two
arguments as expression statements and returns the empty array. -/
def getTouchedPools (fromBlock toBlock : Nat) : List Address :=
  let _ := fromBlock
  let _ := toBlock
  []

/-- `getQuotesForPools` from the source: declared to return
`Promise<void>`; the body binds a dead local `const quotes = []` and
returns `undefined`, embedded as `Unit`. -/
def getQuotesForPools (pools : List Address) : Unit :=
  let _ := pools
  let _quotes : List Quote := []
  ()

/-- `updateInternalPoolState` from the source: the body holds only the
two comment lines describing the intended map updates, so the function
performs no mutation; embedded as the identity on `StrategyState`,
taking the `poolsAndQuotes` argument (of TypeScript type `any`, here the
`Unit` produced by `getQuotesForPools`). -/
def updateInternalPoolState (poolsAndQuotes : Unit) (s : StrategyState) : StrategyState :=
  let _ := poolsAndQuotes
  s

/-- The chunked loop inside `syncState`:
`for (let i = 0; i < poolAddresses.length; i += chunkSize)` slices the
next `chunkSize` addresses, fetches their quotes and applies
`updateInternalPoolState`. -/
def syncChunkLoop (poolAddresses : List Address) (s : StrategyState) : StrategyState :=
  match poolAddresses with
  | [] => s
  | a :: rest =>
    let addresses := (a :: rest).take chunkSize
    let quotes := getQuotesForPools addresses
    syncChunkLoop ((a :: rest).drop chunkSize) (updateInternalPoolState quotes s)
termination_by poolAddresses.length
decreasing_by
  simp only [chunkSize, List.length_drop, List.length_cons]
  omega

/-- `syncState` from the source.  `client.getBlockNumber()` is the only
external interaction; it is passed in as an oracle `gbn` mapping the
attempt index to the observed chain head (`none` models a failed RPC
call).  The source makes a single call — attempt `0` — with no retry,
then enumerates new pools from the factory deployment block to the
observed head and folds the chunk loop over them.  A failed RPC call
propagates as `none`. -/
def syncState (gbn : Nat → Option Nat) (s : StrategyState) : Option StrategyState :=
  match gbn 0 with
  | none => none
  | some toBlock =>
    let fromBlock := PAIR_FACTORY_DEPLOYMENT_BLOCK
    let poolAddresses := getNewPools fromBlock toBlock
    some (syncChunkLoop poolAddresses s)

/-- JavaScript `typeof` applied to an `Event` value: both variants are
objects at runtime, and `typeof` of any non-function object is the
string `"object"`. -/
def typeofEvent (e : Event) : String :=
  let _ := e
  "object"

/-- `processEvent` from the source: `switch (typeof event)` with the
single clause `case 'NewBlock':`, whose body is empty.  The switch
compares the `typeof` tag against the string literal `"NewBlock"`; in
either case no statement executes and the function returns `undefined`
with the closure state untouched. -/
def processEvent (event : Event) (s : StrategyState) : StrategyState × Option Action :=
  if typeofEvent event = "NewBlock" then (s, none) else (s, none)

/-- `processOrderEvent` from the source: the body holds only the five
comment lines describing the intended matching and profitability logic,
so the function returns `undefined` and mutates nothing. -/
def processOrderEvent (event : ListingEvent) (s : StrategyState) :
    StrategyState × Option Action :=
  let _ := event
  (s, none)

/-- `processNewBlockEvent` from the source: the body holds only the
three comment lines describing the intended pool refresh, so the
function returns `undefined` and mutates nothing. -/
def processNewBlockEvent (event : NewBlock) (s : StrategyState) :
    StrategyState × Option Action :=
  let _ := event
  (s, none)

/-- `buildArbTransaction` from the source: the body holds only the three
comment lines describing the intended construction, so the function
returns `undefined` and builds no transaction. -/
def buildArbTransaction (s : StrategyState) : StrategyState × Option Action :=
  (s, none)

/-- The property names of the record returned by the `openseaSudoswapArb`
factory: the source's final statement returns a record holding exactly
the one property `syncState`. -/
def openseaSudoswapArbExports : List String := ["syncState"]

/-- Delivering a sequence of block events to one strategy instance:
each event is handed to `processNewBlockEvent` and the resulting state
is threaded into the next delivery. -/
def deliverBlocks (events : List NewBlock) (s : StrategyState) : StrategyState :=
  events.foldl (fun st e => (processNewBlockEvent e st).1) s

/-- The spec's snapshot-consistency predicate: every pool state in the
snapshot has `lastSyncedBlock` at most the head block. -/
def snapshotConsistent (headBlock : Nat) (s : StrategyState) : Prop :=
  ∀ p ∈ s.sudoPools, p.lastSyncedBlock ≤ headBlock

instance (headBlock : Nat) (s : StrategyState) :
    Decidable (snapshotConsistent headBlock s) := by
  unfold snapshotConsistent; infer_instance

/-! Concrete data used by counterexamples and witnesses. -/

/-- A pool with a live quote of 100 for collection `0xCollection`. -/
def poolA : PoolState :=
  { address := "0xPoolA", nftCollection := "0xCollection",
    currentBid := some { price := 100, fee := 0 }, lastSyncedBlock := 10 }

/-- A native-asset Ethereum listing priced at 50 for `0xCollection`,
profitable against `poolA`'s quote of 100. -/
def listingA : ListingEvent :=
  { nftCollection := "0xCollection", tokenId := 1, paymentToken := "ETH",
    price := 50, chain := "ethereum", rawOrderReference := "order-1" }

/-- A snapshot whose only pool is `poolA`. -/
def stateA : StrategyState :=
  { sudoPools := [poolA], poolBids := [("0xPoolA", 100)] }

/-- A block event carrying a new pool address. -/
def blockEvent5 : NewBlock :=
  { blockNumber := 5, newPoolAddresses := ["0xNew"], touchedPoolAddresses := [] }

/-- A stale pool sharing `poolFresh`'s maximum bid but with an older
`lastSyncedBlock`. -/
def poolStale : PoolState :=
  { address := "0xPoolStale", nftCollection := "0xTieCollection",
    currentBid := some { price := 100, fee := 0 }, lastSyncedBlock := 10 }

/-- A fresh pool sharing `poolStale`'s maximum bid but with a newer
`lastSyncedBlock`. -/
def poolFresh : PoolState :=
  { address := "0xPoolFresh", nftCollection := "0xTieCollection",
    currentBid := some { price := 100, fee := 0 }, lastSyncedBlock := 20 }

/-- A snapshot holding the two tied pools. -/
def stateTie : StrategyState :=
  { sudoPools := [poolStale, poolFresh],
    poolBids := [("0xPoolStale", 100), ("0xPoolFresh", 100)] }

/-- A profitable listing for the tied pools' collection. -/
def listingTie : ListingEvent :=
  { nftCollection := "0xTieCollection", tokenId := 2, paymentToken := "ETH",
    price := 50, chain := "ethereum", rawOrderReference := "order-2" }

/-- A pool for `0xBareCollection` with no usable quote. -/
def poolNoQuote : PoolState :=
  { address := "0xPoolBare", nftCollection := "0xBareCollection",
    currentBid := none, lastSyncedBlock := 3 }

/-- A snapshot whose only pool for `0xBareCollection` lacks a quote. -/
def stateNoQuote : StrategyState :=
  { sudoPools := [poolNoQuote], poolBids := [] }

/-- A listing for the collection whose only pool lacks a quote. -/
def listingNoQuote : ListingEvent :=
  { nftCollection := "0xBareCollection", tokenId := 7, paymentToken := "ETH",
    price := 50, chain := "ethereum", rawOrderReference := "order-3" }

/-- A `getBlockNumber` oracle whose first attempt fails and whose every
later attempt succeeds. -/
def flakyOracle : Nat → Option Nat :=
  fun attempt => if attempt = 0 then none else some 15000000

/-! Helper lemmas shared by the claim theorems. -/

/-- The chunk loop is the identity on the empty address list. -/
theorem syncChunkLoop_nil (s : StrategyState) : syncChunkLoop [] s = s := by
  simp [syncChunkLoop]

/-- `syncState` consults the oracle exactly once, at attempt `0`, and
returns the state unchanged on success: `getNewPools` yields the empty
list, so the chunk loop never runs. -/
theorem syncState_eq (gbn : Nat → Option Nat) (s : StrategyState) :
    syncState gbn s = Option.map (fun _ => s) (gbn 0) := by
  unfold syncState
  cases gbn 0 with
  | none => rfl
  | some toBlock =>
    simp only [Option.map_some]
    exact congrArg some (syncChunkLoop_nil s)

/-! Claim theorems. -/

/-- C1: the claim requires `processOrderEvent` to emit exactly one
`SubmitTransactionAction` for a listing whose unique matching pool
quotes strictly above the listing price plus fees.  Evaluating the code
at such an input: `stateA`'s only pool matches `listingA`'s collection
with bid 100 against price 50 plus fee 0, yet `processOrderEvent`
returns no action and leaves the state untouched — its body is empty. -/
theorem processOrderEvent_profitable_listing_yields_no_action :
    poolA.nftCollection = listingA.nftCollection ∧
    poolA.currentBid = some { price := 100, fee := 0 } ∧
    listingA.price + 0 < 100 ∧
    processOrderEvent listingA stateA = (stateA, none) := by
  refine ⟨rfl, rfl, by decide, rfl⟩

/-- C2: the claim requires `headBlock` to become the maximum block
number seen.  Evaluating the code at a single delivered block event:
`processNewBlockEvent` returns the state unchanged and records no head
block — the strategy state has no head-block component at all and the
function body is empty. -/
theorem processNewBlockEvent_ignores_delivered_block :
    processNewBlockEvent blockEvent5 initialState = (initialState, none) ∧
    deliverBlocks [blockEvent5] initialState = initialState := by
  exact ⟨rfl, rfl⟩

/-- C3: every strategy operation preserves the snapshot-consistency
predicate `lastSyncedBlock ≤ headBlock`, and every pool present before
an operation is present unchanged afterwards (so `lastSyncedBlock` is
non-decreasing per pool).  This holds because `processNewBlockEvent`,
`processOrderEvent` and the chunk loop of `syncState` are all identities
on the snapshot in the source. -/
theorem snapshot_invariant_preserved (headBlock : Nat) (s : StrategyState)
    (h : snapshotConsistent headBlock s) :
    (∀ e, snapshotConsistent headBlock (processNewBlockEvent e s).1 ∧
      ∀ p ∈ s.sudoPools, p ∈ ((processNewBlockEvent e s).1).sudoPools) ∧
    (∀ ev, snapshotConsistent headBlock (processOrderEvent ev s).1 ∧
      ∀ p ∈ s.sudoPools, p ∈ ((processOrderEvent ev s).1).sudoPools) ∧
    (∀ gbn s', syncState gbn s = some s' → snapshotConsistent headBlock s' ∧
      ∀ p ∈ s.sudoPools, p ∈ s'.sudoPools) := by
  refine ⟨fun e => ⟨h, fun p hp => hp⟩, fun ev => ⟨h, fun p hp => hp⟩, ?_⟩
  intro gbn s' hs
  rw [syncState_eq] at hs
  cases hg : gbn 0 with
  | none => rw [hg] at hs; exact Option.noConfusion hs
  | some t =>
    rw [hg] at hs
    simp only [Option.map_some', Option.some.injEq] at hs
    subst hs
    exact ⟨h, fun p hp => hp⟩

/-- C3 witness: instantiated at head block 5 and a snapshot holding one
pool with `lastSyncedBlock` 3. -/
theorem snapshot_invariant_preserved_witness :
    snapshotConsistent 5 stateNoQuote ∧
    ((∀ e, snapshotConsistent 5 (processNewBlockEvent e stateNoQuote).1 ∧
      ∀ p ∈ stateNoQuote.sudoPools, p ∈ ((processNewBlockEvent e stateNoQuote).1).sudoPools) ∧
    (∀ ev, snapshotConsistent 5 (processOrderEvent ev stateNoQuote).1 ∧
      ∀ p ∈ stateNoQuote.sudoPools, p ∈ ((processOrderEvent ev stateNoQuote).1).sudoPools) ∧
    (∀ gbn s', syncState gbn stateNoQuote = some s' → snapshotConsistent 5 s' ∧
      ∀ p ∈ stateNoQuote.sudoPools, p ∈ s'.sudoPools)) :=
  ⟨by decide, snapshot_invariant_preserved 5 stateNoQuote (by decide)⟩

/-- C4: a listing whose matching pools all lack a usable quote yields no
action and leaves the snapshot untouched; no pool is ever selected since
`processOrderEvent` produces nothing for any input. -/
theorem processOrderEvent_absent_quote_excluded (ev : ListingEvent) (s : StrategyState)
    (h : ∀ p ∈ s.sudoPools, p.nftCollection = ev.nftCollection → p.currentBid = none) :
    processOrderEvent ev s = (s, none) := rfl

/-- C4 witness: instantiated at `listingNoQuote` over `stateNoQuote`,
whose single pool for the listing's collection has no quote. -/
theorem processOrderEvent_absent_quote_excluded_witness :
    (∀ p ∈ stateNoQuote.sudoPools,
      p.nftCollection = listingNoQuote.nftCollection → p.currentBid = none) ∧
    processOrderEvent listingNoQuote stateNoQuote = (stateNoQuote, none) :=
  ⟨by decide, processOrderEvent_absent_quote_excluded listingNoQuote stateNoQuote (by decide)⟩

/-- C5: the claim requires the pool with the larger `lastSyncedBlock` to
be selected among pools tied at the maximum bid.  Evaluating the code at
such an input: `stateTie` holds two pools for `listingTie`'s collection
with identical maximum bids and `poolFresh` strictly fresher, yet
`processOrderEvent` selects nothing — it produces no action for any
input. -/
theorem processOrderEvent_tie_selects_no_pool :
    poolStale.currentBid = poolFresh.currentBid ∧
    poolStale.lastSyncedBlock < poolFresh.lastSyncedBlock ∧
    poolStale.nftCollection = listingTie.nftCollection ∧
    poolFresh.nftCollection = listingTie.nftCollection ∧
    processOrderEvent listingTie stateTie = (stateTie, none) := by
  refine ⟨rfl, by decide, rfl, rfl, rfl⟩

/-- C6: a second `syncState` over the unchanged history range reproduces
the snapshot obtained from the first, and key uniqueness of the pool map
survives the re-sync: the chunk loop runs over the empty pool list, so
no entry is ever re-inserted. -/
theorem syncState_resync_idempotent (gbn : Nat → Option Nat) (s s' : StrategyState)
    (h : syncState gbn s = some s') :
    syncState gbn s' = some s' ∧
    ((s.sudoPools.map PoolState.address).Nodup →
      (s'.sudoPools.map PoolState.address).Nodup) := by
  rw [syncState_eq] at h
  cases hg : gbn 0 with
  | none => rw [hg] at h; exact Option.noConfusion h
  | some t =>
    rw [hg] at h
    simp only [Option.map_some', Option.some.injEq] at h
    subst h
    exact ⟨by rw [syncState_eq, hg]; rfl, fun hnd => hnd⟩

/-- C6 witness: instantiated at a constant head oracle and the snapshot
`stateA`, whose first sync returns it unchanged. -/
theorem syncState_resync_idempotent_witness :
    syncState (fun _ => some 15000000) stateA = some stateA ∧
    (syncState (fun _ => some 15000000) stateA = some stateA ∧
      ((stateA.sudoPools.map PoolState.address).Nodup →
        (stateA.sudoPools.map PoolState.address).Nodup)) :=
  ⟨by simp [syncState_eq], syncState_resync_idempotent (fun _ => some 15000000) stateA stateA
    (by simp [syncState_eq])⟩

/-- C7 counterexample: with an oracle whose first attempt fails and
whose every later attempt succeeds, `syncState` fails outright — the
claimed retry with backoff up to an attempt ceiling does not exist in
the code, which makes a single attempt. -/
theorem syncState_failure_not_retried :
    syncState flakyOracle initialState = none ∧ flakyOracle 1 = some 15000000 := by
  exact ⟨rfl, rfl⟩

/-- C7 amended: `syncState` makes exactly one `getBlockNumber` attempt,
attempt `0`: its result depends only on that attempt, and when that
attempt fails `syncState` fails immediately, without retry or backoff. -/
theorem syncState_single_attempt (gbn gbn2 : Nat → Option Nat) (s : StrategyState)
    (h : gbn 0 = gbn2 0) :
    syncState gbn s = syncState gbn2 s ∧
    (gbn 0 = none → syncState gbn s = none) := by
  constructor
  · rw [syncState_eq, syncState_eq, h]
  · intro hn
    rw [syncState_eq, hn]
    rfl

/-- C7 amended witness: instantiated at the always-failing oracle and an
oracle agreeing with it at attempt `0` only. -/
theorem syncState_single_attempt_witness :
    ((fun _ : Nat => (none : Option Nat)) 0 =
      (fun attempt : Nat => if attempt = 0 then none else some 7) 0) ∧
    (syncState (fun _ => none) initialState =
      syncState (fun attempt => if attempt = 0 then none else some 7) initialState ∧
    ((fun _ : Nat => (none : Option Nat)) 0 = none →
      syncState (fun _ => none) initialState = none)) :=
  ⟨rfl, syncState_single_attempt (fun _ => none)
    (fun attempt => if attempt = 0 then none else some 7) initialState rfl⟩

/-- C8 counterexample: the record returned by the `openseaSudoswapArb`
factory does not contain a `processEvent` property, refuting the claim
that both entry points are exposed. -/
theorem factory_exports_missing_processEvent :
    "processEvent" ∉ openseaSudoswapArbExports := by decide

/-- C8 amended: the factory's returned record exposes exactly the one
property `syncState`; `processEvent` is defined inside the closure but
not included in the returned record. -/
theorem factory_exports_syncState_only :
    openseaSudoswapArbExports = ["syncState"] ∧
    "syncState" ∈ openseaSudoswapArbExports ∧
    "processEvent" ∉ openseaSudoswapArbExports := by
  refine ⟨rfl, by decide, by decide⟩

/-- C9: `processEvent` returns `undefined` and leaves the state alone
for every event, and its `switch` discriminates on `typeof event`, which
is the tag `"object"` for every event value and never the string
`"NewBlock"` — the lone case is unreachable. -/
theorem processEvent_always_returns_nothing (event : Event) (s : StrategyState) :
    processEvent event s = (s, none) ∧ typeofEvent event ≠ "NewBlock" := by
  constructor
  · unfold processEvent
    split <;> rfl
  · show ("object" : String) ≠ "NewBlock"
    decide

/-- C10: `getNewPools` returns the empty list for every block range, so
`syncState`'s chunk loop never executes: the sync result is the input
state unchanged, determined solely by the single `getBlockNumber` read,
and the factory's initial pool collections are empty. -/
theorem syncState_frame_unchanged_and_empty :
    (∀ fromBlock toBlock, getNewPools fromBlock toBlock = []) ∧
    (∀ s : StrategyState, syncChunkLoop [] s = s) ∧
    (∀ (gbn : Nat → Option Nat) (s : StrategyState),
      syncState gbn s = Option.map (fun _ => s) (gbn 0)) ∧
    initialState.sudoPools = [] ∧ initialState.poolBids = [] := by
  exact ⟨fun _ _ => rfl, syncChunkLoop_nil, syncState_eq, rfl, rfl⟩

end Mev
